import Mathlib

/-!
Shallow embedding of `src/analyzers/signal_engine.py` and
`src/analyzers/backtester.py` from the smart_money_flow repository,
together with the configuration defaults of `src/utils/config.py`.

Modelling conventions:
* Python `float` is modelled as `ℚ` (the claims' arithmetic is exact
  decimal arithmetic, for which rationals are faithful).
* Python `int` is modelled as `ℤ` (Python ints are unbounded and may be
  negative).
* A Python function that returns `None` on some path returns an
  `Option` value.
* Audit-only fields that no function reads back (`details`, `timestamp`,
  `raw_data` on components; `generated_at`, `expires_at`, `notes` on
  signals; the rendered strings) are omitted: they are free-form text /
  wall-clock metadata with no influence on any computed number.
* The Sharpe ratio's value involves `sqrt` (irrational); only its
  definedness (`len(returns_30d) > 1`, from the source's branch) is
  modelled, as no claim touches its numeric value.
-/

/-- `SignalType` enum of signal_engine.py. -/
inductive SignalType where
  | institutional
  | insider
  | congressional
  | options_flow
  | crypto_whale
  | composite
deriving DecidableEq, Repr

/-- `SignalDirection` enum of signal_engine.py. -/
inductive SignalDirection where
  | buy
  | sell
  | hold
deriving DecidableEq, Repr

/-- `SignalStrength` enum of signal_engine.py. -/
inductive SignalStrength where
  | weak
  | moderate
  | strong
deriving DecidableEq, Repr

/-- `SignalComponent` dataclass (audit fields omitted, see module header). -/
structure SignalComponent where
  source : SignalType
  direction : SignalDirection
  strength : ℚ
deriving DecidableEq, Repr

/-- `TradingSignal` dataclass (audit fields omitted, see module header). -/
structure TradingSignal where
  ticker : String
  direction : SignalDirection
  confidence : ℚ
  strength : SignalStrength
  signal_type : SignalType
  components : List SignalComponent
  price_at_signal : Option ℚ
deriving DecidableEq, Repr

/-- `SignalsConfig` of config.py (source weights and the cross-signal bonus). -/
structure SignalsConfig where
  institutional_accumulation : ℚ
  insider_cluster_buy : ℚ
  congressional_trade : ℚ
  options_flow : ℚ
  cross_signal_bonus : ℚ
deriving DecidableEq, Repr

/-- `AlertsConfig` of config.py (the two thresholds the generators read). -/
structure AlertsConfig where
  insider_cluster_min_count : ℤ
  institutional_min_filers : ℤ
deriving DecidableEq, Repr

/-- The slice of the global `Settings` object that the signal engine reads. -/
structure Settings where
  signals : SignalsConfig
  alerts : AlertsConfig
deriving DecidableEq, Repr

/-- The pydantic defaults of `SignalsConfig` / `AlertsConfig`. -/
def defaultSettings : Settings :=
  { signals :=
      { institutional_accumulation := 9/10
        insider_cluster_buy := 85/100
        congressional_trade := 6/10
        options_flow := 1/2
        cross_signal_bonus := 15/10 }
    alerts :=
      { insider_cluster_min_count := 3
        institutional_min_filers := 2 } }

namespace SignalEngine

/-- `SignalEngine.__init__`'s weight table: the five-entry dict plus the
`.get(c.source, 0.5)` fallback used in `aggregate_signals` (which is what
a `composite`-tagged component would hit). -/
def weight (s : Settings) : SignalType → ℚ
  | .institutional => s.signals.institutional_accumulation
  | .insider => s.signals.insider_cluster_buy
  | .congressional => s.signals.congressional_trade
  | .options_flow => s.signals.options_flow
  | .crypto_whale => 1/2
  | .composite => 1/2

/-- The strength computation of `generate_institutional_signal`:
`min(1.0, 0.2 + filer_count*0.1)` plus the notable-filer boost
`min(0.2, len(notable_filers)*0.05)`, re-capped at 1. -/
def institutional_strength (filer_count : ℤ) (notable_count : ℕ) : ℚ :=
  let strength := min 1 (1/5 + (filer_count : ℚ) * (1/10))
  let notable_boost := min (1/5) ((notable_count : ℚ) * (1/20))
  min 1 (strength + notable_boost)

/-- `SignalEngine.generate_institutional_signal`. -/
def generate_institutional_signal (s : Settings) (ticker : String)
    (filer_count : ℤ) (total_shares_added : ℤ) (notable_filers : List String) :
    Option SignalComponent :=
  if filer_count < s.alerts.institutional_min_filers then
    none
  else
    some { source := .institutional, direction := .buy,
           strength := institutional_strength filer_count notable_filers.length }

/-- The strength computation of `generate_insider_signal`: base
`min(1.0, 0.3 + insider_count*0.15)`, the mutually exclusive value boosts
(+0.2 over $1M, else +0.1 over $500k), then `+ executive_buys*0.1`, each
step re-capped at 1 from above only. -/
def insider_strength (insider_count : ℤ) (total_value : ℚ)
    (executive_buys : ℤ) : ℚ :=
  let strength := min 1 (3/10 + (insider_count : ℚ) * (15/100))
  let strength :=
    if total_value > 1000000 then min 1 (strength + 1/5)
    else if total_value > 500000 then min 1 (strength + 1/10)
    else strength
  min 1 (strength + (executive_buys : ℚ) * (1/10))

/-- `SignalEngine.generate_insider_signal` (`executive_buys` defaults to 0 in
the source; it is passed explicitly here). -/
def generate_insider_signal (s : Settings) (ticker : String)
    (insider_count : ℤ) (total_value : ℚ) (is_cluster_buy : Bool)
    (executive_buys : ℤ) : Option SignalComponent :=
  if ¬ is_cluster_buy ∨ insider_count < s.alerts.insider_cluster_min_count then
    none
  else
    some { source := .insider, direction := .buy,
           strength := insider_strength insider_count total_value executive_buys }

/-- The strength computation of `generate_congressional_signal`:
`min(1.0, abs(net)*0.2)`, +0.15 if any notable trader, re-capped at 1. -/
def congressional_strength (net : ℤ) (notable_traders : List String) : ℚ :=
  let strength := min 1 ((|net| : ℚ) * (1/5))
  if notable_traders ≠ [] then min 1 (strength + 15/100) else strength

/-- `SignalEngine.generate_congressional_signal`. -/
def generate_congressional_signal (s : Settings) (ticker : String)
    (trade_count : ℤ) (buy_count : ℤ) (sell_count : ℤ)
    (notable_traders : List String) : Option SignalComponent :=
  if trade_count < 2 then
    none
  else
    let net := buy_count - sell_count
    if net = 0 then
      none
    else
      let direction : SignalDirection := if net > 0 then .buy else .sell
      some { source := .congressional, direction := direction,
             strength := congressional_strength net notable_traders }

/-- The direction/base-strength dispatch of `generate_options_signal` on the
put/call ratio: BUY below 0.5, SELL above 1.2, no opinion in between. -/
def options_dir_strength (put_call_ratio : ℚ) : Option (SignalDirection × ℚ) :=
  if put_call_ratio < 1/2 then
    some (.buy, min 1 ((7/10 - put_call_ratio) * 2))
  else if put_call_ratio > 12/10 then
    some (.sell, min 1 ((put_call_ratio - 1) * (1/2)))
  else
    none

/-- `SignalEngine.generate_options_signal`; entries of the
`unusual_activity` list are opaque dicts never read individually (only the
list's emptiness and length are used), hence `List Unit`. -/
def generate_options_signal (s : Settings) (ticker : String)
    (call_volume : ℤ) (put_volume : ℤ) (put_call_ratio : ℚ)
    (unusual_activity : List Unit) : Option SignalComponent :=
  if unusual_activity = [] then
    none
  else
    match options_dir_strength put_call_ratio with
    | none => none
    | some (direction, strength) =>
      let unusual_count := unusual_activity.length
      let strength := min 1 (strength + (unusual_count : ℚ) * (1/20))
      some { source := .options_flow, direction := direction, strength := strength }

/-- The weighted sum `sum(c.strength * self.weights.get(c.source, 0.5) for c in sigs)`. -/
def weighted_sum (s : Settings) (sigs : List SignalComponent) : ℚ :=
  (sigs.map (fun c => c.strength * weight s c.source)).sum

/-- The cross-signal bonus step of `aggregate_signals`: a direction's score is
multiplied by the bonus factor when that direction has ≥ 2 components. -/
def apply_bonus (s : Settings) (sigs : List SignalComponent) (score : ℚ) : ℚ :=
  if 2 ≤ sigs.length then score * s.signals.cross_signal_bonus else score

/-- The post-bonus weighted score of direction `d` over component list `cs`,
exactly as `aggregate_signals` computes it. -/
def directional_score (s : Settings) (cs : List SignalComponent)
    (d : SignalDirection) : ℚ :=
  let sigs := cs.filter (fun c => c.direction = d)
  apply_bonus s sigs (weighted_sum s sigs)

/-- The confidence→strength classification at the end of `aggregate_signals`. -/
def classify_strength (confidence : ℚ) : SignalStrength :=
  if confidence ≥ 8/10 then .strong
  else if confidence ≥ 6/10 then .moderate
  else .weak

/-- The `signal_type` computation of `aggregate_signals`
(`active_components[0].source` — the empty case is unreachable there since a
winning score ≥ 0.5 forces a nonempty winning side). -/
def signal_type_of (active : List SignalComponent) : SignalType :=
  if 1 < active.length then .composite
  else
    match active with
    | c :: _ => c.source
    | [] => .composite

/-- Construction of the final `TradingSignal` record at the end of
`aggregate_signals` (strength classification, signal_type, the winning
components, and the caller-provided price). -/
def mk_signal (ticker : String) (direction : SignalDirection) (confidence : ℚ)
    (active : List SignalComponent) (current_price : Option ℚ) : TradingSignal :=
  { ticker := ticker
    direction := direction
    confidence := confidence
    strength := classify_strength confidence
    signal_type := signal_type_of active
    components := active
    price_at_signal := current_price }

/-- `SignalEngine.aggregate_signals`. -/
def aggregate_signals (s : Settings) (ticker : String)
    (components : List SignalComponent) (current_price : Option ℚ) :
    Option TradingSignal :=
  if components = [] then
    none
  else
    let buy_signals := components.filter (fun c => c.direction = .buy)
    let sell_signals := components.filter (fun c => c.direction = .sell)
    let buy_score := apply_bonus s buy_signals (weighted_sum s buy_signals)
    let sell_score := apply_bonus s sell_signals (weighted_sum s sell_signals)
    if buy_score > sell_score ∧ buy_score ≥ 1/2 then
      some (mk_signal ticker .buy
        (min 1 (buy_score / (buy_score + sell_score + 1/10))) buy_signals current_price)
    else if sell_score > buy_score ∧ sell_score ≥ 1/2 then
      some (mk_signal ticker .sell
        (min 1 (sell_score / (buy_score + sell_score + 1/10))) sell_signals current_price)
    else
      none

end SignalEngine

namespace Backtester

/-- One row of the yfinance price DataFrame as the backtester reads it:
the index date (modelled as a day ordinal) and the `Close` column. -/
structure PriceRow where
  date : ℤ
  close : ℚ
deriving DecidableEq, Repr

/-- `BacktestResult` dataclass. -/
structure BacktestResult where
  ticker : String
  signal_date : ℤ
  signal_direction : SignalDirection
  signal_confidence : ℚ
  price_at_signal : ℚ
  return_1d : Option ℚ
  return_7d : Option ℚ
  return_30d : Option ℚ
  price_after_1d : Option ℚ
  price_after_7d : Option ℚ
  price_after_30d : Option ℚ
  is_winner : Option Bool
  max_gain : Option ℚ
  max_drawdown : Option ℚ
deriving DecidableEq, Repr

/-- `BacktestSummary` dataclass. `sharpe_ratio`'s numeric value uses `sqrt`
(irrational), so only its definedness is carried (see module header); the
never-populated `by_signal_type` / `by_direction` dicts are omitted. -/
structure BacktestSummary where
  total_signals : ℕ
  winners : ℕ
  losers : ℕ
  win_rate : ℚ
  avg_return_1d : ℚ
  avg_return_7d : ℚ
  avg_return_30d : ℚ
  best_return : ℚ
  worst_return : ℚ
  avg_winner_return : ℚ
  avg_loser_return : ℚ
  sharpe_ratio_defined : Bool
  profit_factor : Option ℚ
deriving DecidableEq, Repr

/-- Direction adjustment of a raw return: `if signal.direction ==
SignalDirection.SELL: raw_return = -raw_return`. -/
def adjust (direction : SignalDirection) (raw : ℚ) : ℚ :=
  if direction = .sell then -raw else raw

/-- The per-horizon step of `backtest_signal`'s loop body: the close at
`signal_idx + days` if in bounds, with the direction-adjusted return. -/
def horizon (df : List PriceRow) (signal_idx : ℕ) (price_at_signal : ℚ)
    (direction : SignalDirection) (days : ℕ) : Option (ℚ × ℚ) :=
  match df.get? (signal_idx + days) with
  | some row =>
    some (adjust direction ((row.close - price_at_signal) / price_at_signal), row.close)
  | none => none

/-- The direction-adjusted running-return series
`(df.iloc[signal_idx:signal_idx+30]["Close"] - price_at_signal) / price_at_signal`
(negated for SELL) used for `max_gain` / `max_drawdown`. -/
def window_returns (df : List PriceRow) (signal_idx : ℕ) (price_at_signal : ℚ)
    (direction : SignalDirection) : List ℚ :=
  ((df.drop signal_idx).take 30).map
    (fun row => adjust direction ((row.close - price_at_signal) / price_at_signal))

/-- `Backtester.backtest_signal` at its default `holding_days=[1, 7, 30]`,
applied to an already-fetched price series (the yfinance fetch and its cache
are I/O; a fetch failure or empty frame yields `none` upstream of this
logic). The signal is passed as the fields `backtest_signal` reads:
`ticker`, `generated_at` (as the day ordinal `signal_date`), `direction`,
`confidence`. -/
def backtest_signal (df : List PriceRow) (ticker : String) (signal_date : ℤ)
    (direction : SignalDirection) (confidence : ℚ) : Option BacktestResult :=
  if df = [] then
    none
  else
    match df.findIdx? (fun row => decide (signal_date ≤ row.date)) with
    | none => none
    | some signal_idx =>
      let price_at_signal := ((df.get? signal_idx).getD ⟨0, 0⟩).close
      let r1 := horizon df signal_idx price_at_signal direction 1
      let r7 := horizon df signal_idx price_at_signal direction 7
      let r30 := horizon df signal_idx price_at_signal direction 30
      let withWindow := decide (signal_idx + 30 ≤ df.length)
      let rets := window_returns df signal_idx price_at_signal direction
      some { ticker := ticker
             signal_date := signal_date
             signal_direction := direction
             signal_confidence := confidence
             price_at_signal := price_at_signal
             return_1d := r1.map (·.1)
             return_7d := r7.map (·.1)
             return_30d := r30.map (·.1)
             price_after_1d := r1.map (·.2)
             price_after_7d := r7.map (·.2)
             price_after_30d := r30.map (·.2)
             is_winner := (r30.map (·.1)).map (fun r => decide (r > 0))
             max_gain := if withWindow then rets.max? else none
             max_drawdown := if withWindow then rets.min? else none }

/-- The all-zero summary returned by `generate_summary` when there are no
results (or no results with a 30-day return); `total_signals` is the only
field that differs between the two early returns. -/
def empty_summary (total : ℕ) : BacktestSummary :=
  { total_signals := total
    winners := 0
    losers := 0
    win_rate := 0
    avg_return_1d := 0
    avg_return_7d := 0
    avg_return_30d := 0
    best_return := 0
    worst_return := 0
    avg_winner_return := 0
    avg_loser_return := 0
    sharpe_ratio_defined := false
    profit_factor := none }

/-- `np.mean` over a list known nonempty at each call site. -/
def mean (xs : List ℚ) : ℚ := xs.sum / xs.length

/-- `Backtester.generate_summary` over an explicit result list.
Python truthiness of `r.is_winner` (an `Optional[bool]`): `None` and
`False` are both falsy, so winners are exactly the results with
`is_winner = some true`. -/
def generate_summary (results : List BacktestResult) : BacktestSummary :=
  if results = [] then
    empty_summary 0
  else
    let valid_results := results.filter (fun r => r.return_30d ≠ none)
    if valid_results = [] then
      empty_summary results.length
    else
      let winners := valid_results.filter (fun r => r.is_winner = some true)
      let losers := valid_results.filter (fun r => ¬ (r.is_winner = some true))
      let returns_1d := valid_results.filterMap (·.return_1d)
      let returns_7d := valid_results.filterMap (·.return_7d)
      let returns_30d := valid_results.filterMap (·.return_30d)
      let winner_returns := winners.filterMap (·.return_30d)
      let loser_returns := losers.filterMap (·.return_30d)
      let total_gains := ((returns_30d.filter (fun r => 0 < r)).sum)
      let total_losses := |((returns_30d.filter (fun r => r < 0)).sum)|
      { total_signals := results.length
        winners := winners.length
        losers := losers.length
        win_rate := (winners.length : ℚ) / (valid_results.length : ℚ)
        avg_return_1d := if returns_1d ≠ [] then mean returns_1d else 0
        avg_return_7d := if returns_7d ≠ [] then mean returns_7d else 0
        avg_return_30d := if returns_30d ≠ [] then mean returns_30d else 0
        best_return := (returns_30d.max?).getD 0
        worst_return := (returns_30d.min?).getD 0
        avg_winner_return := if winner_returns ≠ [] then mean winner_returns else 0
        avg_loser_return := if loser_returns ≠ [] then mean loser_returns else 0
        sharpe_ratio_defined := decide (1 < returns_30d.length)
        profit_factor := if 0 < total_losses then some (total_gains / total_losses) else none }

end Backtester

namespace SignalEngine

/-- `aggregate_signals` characterized through `directional_score`
(definitional repackaging of the let-bindings in its body). -/
lemma aggregate_signals_eq (s : Settings) (t : String)
    (cs : List SignalComponent) (p : Option ℚ) :
    aggregate_signals s t cs p =
      if cs = [] then none
      else if directional_score s cs .buy > directional_score s cs .sell ∧
          directional_score s cs .buy ≥ 1/2 then
        some (mk_signal t .buy
          (min 1 (directional_score s cs .buy /
            (directional_score s cs .buy + directional_score s cs .sell + 1/10)))
          (cs.filter (fun c => c.direction = .buy)) p)
      else if directional_score s cs .sell > directional_score s cs .buy ∧
          directional_score s cs .sell ≥ 1/2 then
        some (mk_signal t .sell
          (min 1 (directional_score s cs .sell /
            (directional_score s cs .buy + directional_score s cs .sell + 1/10)))
          (cs.filter (fun c => c.direction = .sell)) p)
      else none := rfl

/-- If neither direction's post-bonus score wins strictly while clearing the
0.5 floor, `aggregate_signals` returns `none`. -/
lemma aggregate_signals_eq_none (s : Settings) (t : String)
    (cs : List SignalComponent) (p : Option ℚ)
    (hbuy : ¬ (directional_score s cs .buy > directional_score s cs .sell ∧
      directional_score s cs .buy ≥ 1/2))
    (hsell : ¬ (directional_score s cs .sell > directional_score s cs .buy ∧
      directional_score s cs .sell ≥ 1/2)) :
    aggregate_signals s t cs p = none := by
  rcases em (cs = []) with h0 | h0
  · rw [aggregate_signals_eq, if_pos h0]
  · rw [aggregate_signals_eq, if_neg h0, if_neg hbuy, if_neg hsell]

/-- A produced signal means one side won strictly and cleared the floor, and
the signal is the corresponding `mk_signal` record. -/
lemma aggregate_signals_some (s : Settings) (t : String)
    (cs : List SignalComponent) (p : Option ℚ) (sig : TradingSignal)
    (h : aggregate_signals s t cs p = some sig) :
    (directional_score s cs .buy > directional_score s cs .sell ∧
      directional_score s cs .buy ≥ 1/2 ∧
      sig = mk_signal t .buy
        (min 1 (directional_score s cs .buy /
          (directional_score s cs .buy + directional_score s cs .sell + 1/10)))
        (cs.filter (fun c => c.direction = .buy)) p) ∨
    (directional_score s cs .sell > directional_score s cs .buy ∧
      directional_score s cs .sell ≥ 1/2 ∧
      sig = mk_signal t .sell
        (min 1 (directional_score s cs .sell /
          (directional_score s cs .buy + directional_score s cs .sell + 1/10)))
        (cs.filter (fun c => c.direction = .sell)) p) := by
  rw [aggregate_signals_eq] at h
  rcases em (cs = []) with h0 | h0
  · rw [if_pos h0] at h
    exact Option.noConfusion h
  · rw [if_neg h0] at h
    by_cases hA : directional_score s cs .buy > directional_score s cs .sell ∧
        directional_score s cs .buy ≥ 1/2
    · rw [if_pos hA] at h
      exact Or.inl ⟨hA.1, hA.2, (Option.some.inj h).symm⟩
    · rw [if_neg hA] at h
      by_cases hB : directional_score s cs .sell > directional_score s cs .buy ∧
          directional_score s cs .sell ≥ 1/2
      · rw [if_pos hB] at h
        exact Or.inr ⟨hB.1, hB.2, (Option.some.inj h).symm⟩
      · rw [if_neg hB] at h
        exact Option.noConfusion h

end SignalEngine

open SignalEngine Backtester in
/-- C1: aggregating a CONGRESSIONAL BUY component of strength 0.8 with an
INSIDER BUY component of strength 0.9 under the default configuration
(weights 0.6 / 0.85, cross-signal bonus 1.5) yields a BUY signal with
confidence min(1.0, 1.8675/(1.8675+0+0.1)) = 747/787 ≈ 0.9492, strength
STRONG and signal_type COMPOSITE. -/
theorem claim_C1 :
    aggregate_signals defaultSettings "AAPL"
      [{ source := .congressional, direction := .buy, strength := 8/10 },
       { source := .insider, direction := .buy, strength := 9/10 }] none =
      some { ticker := "AAPL"
             direction := .buy
             confidence := min 1 ((18675/10000) / (18675/10000 + 0 + 1/10))
             strength := .strong
             signal_type := .composite
             components :=
               [{ source := .congressional, direction := .buy, strength := 8/10 },
                { source := .insider, direction := .buy, strength := 9/10 }]
             price_at_signal := none } ∧
    min 1 ((18675/10000 : ℚ) / (18675/10000 + 0 + 1/10)) = 747/787 ∧
    |(747/787 : ℚ) - 9492/10000| < 1/10000 := by
  refine ⟨?_, by norm_num, by rw [abs_lt]; constructor <;> norm_num⟩
  simp +decide only [aggregate_signals, mk_signal, classify_strength, signal_type_of,
    apply_bonus, weighted_sum, weight, defaultSettings, min_def,
    List.filter_cons, List.filter_nil, List.map_cons, List.map_nil,
    List.sum_cons, List.sum_nil, List.length]
  norm_num [min_def]

open SignalEngine in
/-- C2: `aggregate_signals` yields no signal when both post-bonus weighted
scores are below 0.5 or when the two scores are equal, and any produced
signal comes from a strictly higher winning score that is at least 0.5. -/
theorem claim_C2 (s : Settings) (t : String) (cs : List SignalComponent)
    (p : Option ℚ) :
    (directional_score s cs .buy < 1/2 → directional_score s cs .sell < 1/2 →
      aggregate_signals s t cs p = none) ∧
    (directional_score s cs .buy = directional_score s cs .sell →
      aggregate_signals s t cs p = none) ∧
    (∀ sig, aggregate_signals s t cs p = some sig →
      (1/2 : ℚ) ≤ max (directional_score s cs .buy) (directional_score s cs .sell) ∧
      directional_score s cs .buy ≠ directional_score s cs .sell) := by
  refine ⟨?_, ?_, ?_⟩
  · intro hb hs
    exact aggregate_signals_eq_none s t cs p
      (fun h => absurd h.2 (not_le.mpr hb)) (fun h => absurd h.2 (not_le.mpr hs))
  · intro he
    exact aggregate_signals_eq_none s t cs p
      (fun h => absurd h.1 (by rw [he]; exact lt_irrefl _))
      (fun h => absurd h.1 (by rw [he]; exact lt_irrefl _))
  · intro sig hsig
    rcases aggregate_signals_some s t cs p sig hsig with ⟨h1, h2, _⟩ | ⟨h1, h2, _⟩
    · exact ⟨le_trans h2 (le_max_left _ _), ne_of_gt h1⟩
    · exact ⟨le_trans h2 (le_max_right _ _), Ne.symm (ne_of_gt h1)⟩

open SignalEngine in
/-- Witness for C2 at the empty component list (tied zero scores). -/
theorem claim_C2_witness :
    aggregate_signals defaultSettings "AAPL" [] none = none :=
  (claim_C2 defaultSettings "AAPL" [] none).2.1 rfl

namespace SignalEngine

/-- The weighted score of a component list is nonnegative when all weights
and all component strengths are. -/
lemma weighted_sum_nonneg (s : Settings) (hw : ∀ ty, 0 ≤ weight s ty)
    (cs : List SignalComponent) (hc : ∀ c ∈ cs, 0 ≤ c.strength) :
    0 ≤ weighted_sum s cs := by
  apply List.sum_nonneg
  intro x hx
  simp only [List.mem_map] at hx
  obtain ⟨c, hcmem, rfl⟩ := hx
  exact mul_nonneg (hc c hcmem) (hw _)

/-- The post-bonus directional score is nonnegative under nonnegative
weights, strengths and bonus factor. -/
lemma directional_score_nonneg (s : Settings) (hw : ∀ ty, 0 ≤ weight s ty)
    (hb : 0 ≤ s.signals.cross_signal_bonus)
    (cs : List SignalComponent) (hc : ∀ c ∈ cs, 0 ≤ c.strength)
    (d : SignalDirection) : 0 ≤ directional_score s cs d := by
  have hsum : 0 ≤ weighted_sum s (cs.filter (fun c => c.direction = d)) :=
    weighted_sum_nonneg s hw _ (fun c hcm => hc c (List.mem_of_mem_filter hcm))
  unfold directional_score apply_bonus
  dsimp only
  split_ifs
  · exact mul_nonneg hsum hb
  · exact hsum

end SignalEngine

open SignalEngine in
/-- C9: under the default configuration, every signal aggregated from
components whose strengths respect the documented [0,1] clamp invariant has
confidence strictly between 0 and 1 — the winning score is at least 0.5 and
the denominator `buy_score + sell_score + 0.1` strictly exceeds it, so the
`min(1.0, ·)` cap is never attained. -/
theorem claim_C9 (t : String) (cs : List SignalComponent) (p : Option ℚ)
    (sig : TradingSignal) (hstr : ∀ c ∈ cs, 0 ≤ c.strength)
    (h : aggregate_signals defaultSettings t cs p = some sig) :
    0 < sig.confidence ∧ sig.confidence < 1 := by
  have hw : ∀ ty, 0 ≤ weight defaultSettings ty := by
    intro ty; cases ty <;> norm_num [weight, defaultSettings]
  have hbonus : (0:ℚ) ≤ defaultSettings.signals.cross_signal_bonus := by
    norm_num [defaultSettings]
  have hbs := directional_score_nonneg defaultSettings hw hbonus cs hstr .buy
  have hss := directional_score_nonneg defaultSettings hw hbonus cs hstr .sell
  set bs := directional_score defaultSettings cs .buy with hbsdef
  set ss := directional_score defaultSettings cs .sell with hssdef
  rcases aggregate_signals_some _ _ _ _ _ h with ⟨hgt, hge, hsig⟩ | ⟨hgt, hge, hsig⟩
  · have hden : 0 < bs + ss + 1/10 := by linarith
    have hlt : bs / (bs + ss + 1/10) < 1 := (div_lt_one hden).mpr (by linarith)
    have hpos : 0 < bs / (bs + ss + 1/10) := div_pos (by linarith) hden
    rw [hsig]
    show 0 < min 1 (bs / (bs + ss + 1/10)) ∧ min 1 (bs / (bs + ss + 1/10)) < 1
    rw [min_eq_right hlt.le]
    exact ⟨hpos, hlt⟩
  · have hden : 0 < bs + ss + 1/10 := by linarith
    have hlt : ss / (bs + ss + 1/10) < 1 := (div_lt_one hden).mpr (by linarith)
    have hpos : 0 < ss / (bs + ss + 1/10) := div_pos (by linarith) hden
    rw [hsig]
    show 0 < min 1 (ss / (bs + ss + 1/10)) ∧ min 1 (ss / (bs + ss + 1/10)) < 1
    rw [min_eq_right hlt.le]
    exact ⟨hpos, hlt⟩

open SignalEngine in
/-- Witness for C9 at the two-BUY-component scenario: the aggregated
confidence 747/787 lies strictly between 0 and 1. -/
theorem claim_C9_witness :
    0 < (TradingSignal.mk "AAPL" .buy (747/787) .strong .composite
      [{ source := .congressional, direction := .buy, strength := 8/10 },
       { source := .insider, direction := .buy, strength := 9/10 }] none).confidence ∧
    (TradingSignal.mk "AAPL" .buy (747/787) .strong .composite
      [{ source := .congressional, direction := .buy, strength := 8/10 },
       { source := .insider, direction := .buy, strength := 9/10 }] none).confidence < 1 := by
  apply claim_C9 "AAPL"
    [{ source := .congressional, direction := .buy, strength := 8/10 },
     { source := .insider, direction := .buy, strength := 9/10 }] none
  · intro c hc
    simp only [List.mem_cons, List.not_mem_nil, or_false] at hc
    rcases hc with rfl | rfl <;> norm_num
  · simp +decide only [aggregate_signals, mk_signal, classify_strength, signal_type_of,
      apply_bonus, weighted_sum, weight, defaultSettings, min_def,
      List.filter_cons, List.filter_nil, List.map_cons, List.map_nil,
      List.sum_cons, List.sum_nil, List.length]
    norm_num [min_def]

namespace SignalEngine

/-- Bounds for the institutional strength under the default minimum-filer
guard (`filer_count ≥ 2`). -/
lemma institutional_strength_bounds (fc : ℤ) (n : ℕ) (h2 : (2:ℤ) ≤ fc) :
    0 ≤ institutional_strength fc n ∧ institutional_strength fc n ≤ 1 := by
  have hfc : (2:ℚ) ≤ (fc:ℚ) := by exact_mod_cast h2
  unfold institutional_strength
  dsimp only
  constructor
  · apply le_min (by norm_num)
    apply add_nonneg
    · exact le_min (by norm_num) (by linarith)
    · exact le_min (by norm_num) (mul_nonneg (by positivity) (by norm_num))
  · exact min_le_left _ _

/-- Bounds for the insider strength under the cluster guard
(`insider_count ≥ 3`) and a nonnegative executive-buy count. -/
lemma insider_strength_bounds (ic : ℤ) (tv : ℚ) (eb : ℤ)
    (h3 : (3:ℤ) ≤ ic) (heb : (0:ℤ) ≤ eb) :
    0 ≤ insider_strength ic tv eb ∧ insider_strength ic tv eb ≤ 1 := by
  have hic : (3:ℚ) ≤ (ic:ℚ) := by exact_mod_cast h3
  have heb' : (0:ℚ) ≤ (eb:ℚ) := by exact_mod_cast heb
  unfold insider_strength
  dsimp only
  constructor
  · apply le_min (by norm_num)
    apply add_nonneg _ (mul_nonneg heb' (by norm_num))
    split_ifs
    · exact le_min (by norm_num) (add_nonneg (le_min (by norm_num) (by linarith)) (by norm_num))
    · exact le_min (by norm_num) (add_nonneg (le_min (by norm_num) (by linarith)) (by norm_num))
    · exact le_min (by norm_num) (by linarith)
  · exact min_le_left _ _

/-- The congressional strength is always within [0,1] (no guard needed). -/
lemma congressional_strength_bounds (net : ℤ) (nt : List String) :
    0 ≤ congressional_strength net nt ∧ congressional_strength net nt ≤ 1 := by
  have habs : (0:ℚ) ≤ |(net:ℚ)| * (1/5) := mul_nonneg (abs_nonneg _) (by norm_num)
  unfold congressional_strength
  dsimp only
  constructor
  · split_ifs
    · exact le_min (by norm_num) (add_nonneg (le_min (by norm_num) habs) (by norm_num))
    · exact le_min (by norm_num) habs
  · split_ifs
    · exact min_le_left _ _
    · exact min_le_left _ _

/-- The base strength produced by the put/call-ratio dispatch is in [0,1]. -/
lemma options_dir_strength_bounds (pcr : ℚ) (d : SignalDirection) (st : ℚ)
    (h : options_dir_strength pcr = some (d, st)) : 0 ≤ st ∧ st ≤ 1 := by
  unfold options_dir_strength at h
  split_ifs at h with h1 h2
  · simp only [Option.some.injEq, Prod.mk.injEq] at h
    obtain ⟨-, rfl⟩ := h
    exact ⟨le_min (by norm_num) (by linarith), min_le_left _ _⟩
  · simp only [Option.some.injEq, Prod.mk.injEq] at h
    obtain ⟨-, rfl⟩ := h
    exact ⟨le_min (by norm_num) (by linarith), min_le_left _ _⟩

end SignalEngine

open SignalEngine in
/-- C3 counterexample: the insider generator, given the contract-violating
input `executive_buys = -8` (a negative count) with an otherwise minimal
cluster buy, returns a component whose strength is -1/20 — strictly below
the claimed lower bound 0. The `min(1.0, ·)` caps clamp only from above. -/
theorem claim_C3_counterexample :
    generate_insider_signal defaultSettings "AAPL" 3 0 true (-8) =
      some { source := .insider, direction := .buy, strength := -1/20 } ∧
    ((-1/20 : ℚ) < 0) := by
  constructor
  · simp +decide only [generate_insider_signal, defaultSettings]
    norm_num [insider_strength, min_def]
  · norm_num

open SignalEngine in
/-- C3 (amended): under the default configuration, every component returned
by the four generators has strength in [0,1], provided the insider
generator's `executive_buys` argument is nonnegative (for negative
`executive_buys` the insider strength can drop below 0, see the
counterexample). -/
theorem claim_C3 (t₁ t₂ t₃ t₄ : String)
    (filer_count total_shares : ℤ) (notable_filers : List String)
    (insider_count : ℤ) (total_value : ℚ) (is_cluster_buy : Bool)
    (executive_buys : ℤ)
    (trade_count buy_count sell_count : ℤ) (notable_traders : List String)
    (call_volume put_volume : ℤ) (put_call_ratio : ℚ)
    (unusual_activity : List Unit)
    (hexec : (0:ℤ) ≤ executive_buys)
    (c₁ c₂ c₃ c₄ : SignalComponent) :
    (generate_institutional_signal defaultSettings t₁ filer_count total_shares
        notable_filers = some c₁ → 0 ≤ c₁.strength ∧ c₁.strength ≤ 1) ∧
    (generate_insider_signal defaultSettings t₂ insider_count total_value
        is_cluster_buy executive_buys = some c₂ →
      0 ≤ c₂.strength ∧ c₂.strength ≤ 1) ∧
    (generate_congressional_signal defaultSettings t₃ trade_count buy_count
        sell_count notable_traders = some c₃ →
      0 ≤ c₃.strength ∧ c₃.strength ≤ 1) ∧
    (generate_options_signal defaultSettings t₄ call_volume put_volume
        put_call_ratio unusual_activity = some c₄ →
      0 ≤ c₄.strength ∧ c₄.strength ≤ 1) := by
  refine ⟨?_, ?_, ?_, ?_⟩
  · intro h
    unfold generate_institutional_signal at h
    split_ifs at h with hf
    obtain rfl := Option.some.inj h
    exact institutional_strength_bounds filer_count notable_filers.length
      (not_lt.mp hf)
  · intro h
    unfold generate_insider_signal at h
    split_ifs at h with hg
    obtain rfl := Option.some.inj h
    push_neg at hg
    exact insider_strength_bounds insider_count total_value executive_buys
      hg.2 hexec
  · intro h
    unfold generate_congressional_signal at h
    dsimp only at h
    split_ifs at h with h1 h2 h3 <;>
      (obtain rfl := Option.some.inj h;
       exact congressional_strength_bounds _ notable_traders)
  · intro h
    unfold generate_options_signal at h
    split_ifs at h with h1
    rcases hds : options_dir_strength put_call_ratio with - | ⟨d, st⟩
    · rw [hds] at h
      exact Option.noConfusion h
    · rw [hds] at h
      dsimp only at h
      obtain rfl := Option.some.inj h
      have hb := options_dir_strength_bounds put_call_ratio d st hds
      refine ⟨le_min (by norm_num) ?_, min_le_left _ _⟩
      exact add_nonneg hb.1 (mul_nonneg (by positivity) (by norm_num))

open SignalEngine in
/-- Witness for C3 at minimal qualifying inputs for each generator. -/
theorem claim_C3_witness :
    ((0:ℚ) ≤ 2/5 ∧ (2/5:ℚ) ≤ 1) ∧ ((0:ℚ) ≤ 3/4 ∧ (3/4:ℚ) ≤ 1) ∧
    ((0:ℚ) ≤ 2/5 ∧ (2/5:ℚ) ≤ 1) ∧ ((0:ℚ) ≤ 1 ∧ (1:ℚ) ≤ 1) := by
  obtain ⟨h1, h2, h3, h4⟩ := claim_C3 "A" "A" "A" "A" 2 0 [] 3 0 true 0 2 2 0 []
    0 0 0 [()] (le_refl 0)
    { source := .institutional, direction := .buy, strength := 2/5 }
    { source := .insider, direction := .buy, strength := 3/4 }
    { source := .congressional, direction := .buy, strength := 2/5 }
    { source := .options_flow, direction := .buy, strength := 1 }
  refine ⟨h1 ?_, h2 ?_, h3 ?_, h4 ?_⟩
  · simp +decide only [generate_institutional_signal, defaultSettings]
    norm_num [institutional_strength, min_def]
  · simp +decide only [generate_insider_signal, defaultSettings]
    norm_num [insider_strength, min_def]
  · simp +decide only [generate_congressional_signal, defaultSettings]
    norm_num [congressional_strength, min_def]
  · simp +decide only [generate_options_signal, options_dir_strength,
      defaultSettings, List.length]
    norm_num [min_def]

open SignalEngine in
/-- C4 (amended): the generators perform no input validation and raise no
error — their result is a total function of the numeric inputs alone.  The
ticker (even empty) is ignored, and a negative count flows through the
normal scoring logic: the congressional generator returns a component
exactly when `trade_count ≥ 2` and `buy_count ≠ sell_count`, the
institutional one exactly when `filer_count` clears the configured minimum,
regardless of validity of the inputs. -/
theorem claim_C4 (s : Settings) (t t' : String)
    (trade_count buy_count sell_count : ℤ) (notable_traders : List String)
    (filer_count total_shares : ℤ) (notable_filers : List String) :
    generate_congressional_signal s t trade_count buy_count sell_count
        notable_traders =
      generate_congressional_signal s t' trade_count buy_count sell_count
        notable_traders ∧
    (generate_congressional_signal s t trade_count buy_count sell_count
        notable_traders).isSome =
      (decide (2 ≤ trade_count) && decide (buy_count ≠ sell_count)) ∧
    generate_institutional_signal s t filer_count total_shares notable_filers =
      generate_institutional_signal s t' filer_count total_shares
        notable_filers ∧
    (generate_institutional_signal s t filer_count total_shares
        notable_filers).isSome =
      decide (s.alerts.institutional_min_filers ≤ filer_count) := by
  refine ⟨rfl, ?_, rfl, ?_⟩
  · unfold generate_congressional_signal
    dsimp only
    split_ifs with h1 h2 h3
    · simp [not_le.mpr h1]
    · have heq : buy_count = sell_count := by omega
      simp [heq]
    · have hne : buy_count ≠ sell_count := by omega
      simp [not_lt.mp h1, hne]
    · have hne : buy_count ≠ sell_count := by omega
      simp [not_lt.mp h1, hne]
  · unfold generate_institutional_signal
    split_ifs with h1
    · simp [not_le.mpr h1]
    · simp [not_lt.mp h1]

open SignalEngine in
/-- C4 counterexample: called with an empty ticker and negative buy/sell
counts — contract-violating inputs — the congressional generator does not
fail with a validation error; it silently returns a BUY component (net =
(-1) - (-3) = 2 > 0, strength 2/5). -/
theorem claim_C4_counterexample :
    generate_congressional_signal defaultSettings "" 2 (-1) (-3) [] =
      some { source := .congressional, direction := .buy, strength := 2/5 } ∧
    (generate_congressional_signal defaultSettings "" 2 (-1) (-3) []).isSome
      = true := by
  have h : generate_congressional_signal defaultSettings "" 2 (-1) (-3) [] =
      some { source := .congressional, direction := .buy, strength := 2/5 } := by
    simp +decide only [generate_congressional_signal]
    norm_num [congressional_strength, min_def]
  exact ⟨h, by rw [h]; rfl⟩

open SignalEngine in
/-- C7: the congressional generator returns no component whenever
`buy_count = sell_count` (any values, any `trade_count`), and the options
generator returns no component whenever the put/call ratio lies strictly
between 0.5 and 1.2, regardless of the unusual-activity list. -/
theorem claim_C7 (s : Settings) (t₁ t₂ : String)
    (trade_count buy_count sell_count : ℤ) (notable_traders : List String)
    (call_volume put_volume : ℤ) (put_call_ratio : ℚ)
    (unusual_activity : List Unit)
    (heq : buy_count = sell_count)
    (hlo : 1/2 < put_call_ratio) (hhi : put_call_ratio < 12/10) :
    generate_congressional_signal s t₁ trade_count buy_count sell_count
      notable_traders = none ∧
    generate_options_signal s t₂ call_volume put_volume put_call_ratio
      unusual_activity = none := by
  constructor
  · unfold generate_congressional_signal
    dsimp only
    split_ifs with h1 h2
    · rfl
    · rfl
    · exfalso; omega
  · unfold generate_options_signal options_dir_strength
    split_ifs with h1 h2 h3
    · rfl
    · exact absurd h2 (by linarith)
    · exact absurd h3 (by linarith)
    · rfl

open SignalEngine in
/-- Witness for C7: two congressional trades split 1–1, and a put/call
ratio of 1.0 with two unusual contracts, both yield no component. -/
theorem claim_C7_witness :
    SignalEngine.generate_congressional_signal defaultSettings "AAPL" 5 1 1 []
      = none ∧
    SignalEngine.generate_options_signal defaultSettings "AAPL" 10 10 1
      [(), ()] = none :=
  claim_C7 defaultSettings "AAPL" "AAPL" 5 1 1 [] 10 10 1 [(), ()] rfl
    (by norm_num) (by norm_num)

namespace Backtester

/-- `backtest_signal` characterized at a found anchor index: it returns the
result record built from the anchor close and the three horizon lookups. -/
lemma backtest_signal_eq (df : List PriceRow) (t : String) (sd : ℤ)
    (dirn : SignalDirection) (conf : ℚ) (idx : ℕ)
    (hidx : df.findIdx? (fun row => decide (sd ≤ row.date)) = some idx) :
    backtest_signal df t sd dirn conf =
      some { ticker := t
             signal_date := sd
             signal_direction := dirn
             signal_confidence := conf
             price_at_signal := ((df.get? idx).getD ⟨0, 0⟩).close
             return_1d :=
               (horizon df idx ((df.get? idx).getD ⟨0, 0⟩).close dirn 1).map (·.1)
             return_7d :=
               (horizon df idx ((df.get? idx).getD ⟨0, 0⟩).close dirn 7).map (·.1)
             return_30d :=
               (horizon df idx ((df.get? idx).getD ⟨0, 0⟩).close dirn 30).map (·.1)
             price_after_1d :=
               (horizon df idx ((df.get? idx).getD ⟨0, 0⟩).close dirn 1).map (·.2)
             price_after_7d :=
               (horizon df idx ((df.get? idx).getD ⟨0, 0⟩).close dirn 7).map (·.2)
             price_after_30d :=
               (horizon df idx ((df.get? idx).getD ⟨0, 0⟩).close dirn 30).map (·.2)
             is_winner :=
               ((horizon df idx ((df.get? idx).getD ⟨0, 0⟩).close dirn 30).map
                 (·.1)).map (fun r => decide (r > 0))
             max_gain :=
               if decide (idx + 30 ≤ df.length) then
                 (window_returns df idx ((df.get? idx).getD ⟨0, 0⟩).close dirn).max?
               else none
             max_drawdown :=
               if decide (idx + 30 ≤ df.length) then
                 (window_returns df idx ((df.get? idx).getD ⟨0, 0⟩).close dirn).min?
               else none } := by
  have hne : df ≠ [] := by
    intro h
    rw [h] at hidx
    exact Option.noConfusion hidx
  unfold backtest_signal
  rw [if_neg hne, hidx]

end Backtester

open Backtester in
/-- C5: the per-horizon backtest return is `(future_close − anchor_close) /
anchor_close`, negated exactly for SELL signals; on a price path that rises
10% from the anchor day to trading day +7, a SELL signal records
`return_7d = -1/10` and a BUY signal `+1/10`. -/
theorem claim_C5 (df : List PriceRow) (t : String) (sd : ℤ) (conf p0 : ℚ)
    (idx : ℕ) (row7 : PriceRow)
    (hidx : df.findIdx? (fun row => decide (sd ≤ row.date)) = some idx)
    (hp0 : ((df.get? idx).getD ⟨0, 0⟩).close = p0)
    (h7 : df.get? (idx + 7) = some row7)
    (hrise : row7.close = (11/10) * p0)
    (hpos : 0 < p0) :
    ((backtest_signal df t sd .sell conf).map (fun r => r.return_7d) =
      some (some (-(1/10)))) ∧
    ((backtest_signal df t sd .buy conf).map (fun r => r.return_7d) =
      some (some (1/10))) ∧
    (∀ dirn, (backtest_signal df t sd dirn conf).map (fun r => r.return_7d) =
      some (some (adjust dirn ((row7.close - p0) / p0)))) := by
  have hh : ∀ dirn, (horizon df idx p0 dirn 7).map (fun x => x.1) =
      some (adjust dirn ((row7.close - p0) / p0)) := by
    intro dirn
    unfold horizon
    rw [h7]
    rfl
  have h5 : ∀ dirn, (backtest_signal df t sd dirn conf).map
      (fun r => r.return_7d) = some (adjust dirn ((row7.close - p0) / p0)) := by
    intro dirn
    rw [backtest_signal_eq df t sd dirn conf idx hidx, hp0, Option.map_some']
    rw [show (fun (x : ℚ × ℚ) => x.1) = (fun (x : ℚ × ℚ) => x.1) from rfl]
    exact congrArg some (hh dirn)
  have harith : (row7.close - p0) / p0 = 1/10 := by
    rw [hrise]
    field_simp
    ring
  refine ⟨?_, ?_, fun dirn => (h5 dirn).trans ?_⟩
  · rw [h5 .sell]
    simp [adjust, harith]
  · rw [h5 .buy]
    simp [adjust, harith]
  · rfl

/-- The 8-row price series of the C5 witness: constant at 100 from the
anchor, closing 10% higher on trading day +7. -/
def c5df : List Backtester.PriceRow :=
  [⟨0, 100⟩, ⟨1, 100⟩, ⟨2, 100⟩, ⟨3, 100⟩, ⟨4, 100⟩, ⟨5, 100⟩, ⟨6, 100⟩,
   ⟨7, 110⟩]

open Backtester in
/-- Witness for C5 on `c5df`. -/
theorem claim_C5_witness :
    ((backtest_signal c5df "AAPL" 0 .sell (3/4)).map (fun r => r.return_7d) =
      some (some (-(1/10)))) ∧
    ((backtest_signal c5df "AAPL" 0 .buy (3/4)).map (fun r => r.return_7d) =
      some (some (1/10))) := by
  obtain ⟨hs, hb, -⟩ := claim_C5 c5df "AAPL" 0 (3/4) 100 0 ⟨7, 110⟩ rfl rfl rfl
    (by norm_num) (by norm_num)
  exact ⟨hs, hb⟩

namespace Backtester

instance : Std.Antisymm ((· ≤ ·) : ℚ → ℚ → Prop) :=
  ⟨fun h h' => le_antisymm h h'⟩

/-- `List.max?` returns a member that bounds the list from above. -/
lemma max?_spec (l : List ℚ) (a : ℚ) (h : l.max? = some a) :
    a ∈ l ∧ ∀ b ∈ l, b ≤ a :=
  (List.max?_eq_some_iff (fun a => le_refl a) (fun a b => max_choice a b)
    (fun _ _ _ => max_le_iff)).mp h

/-- `List.min?` returns a member that bounds the list from below. -/
lemma min?_spec (l : List ℚ) (a : ℚ) (h : l.min? = some a) :
    a ∈ l ∧ ∀ b ∈ l, a ≤ b :=
  (List.min?_eq_some_iff (fun a => le_refl a) (fun a b => min_choice a b)
    (fun _ _ _ => le_min_iff)).mp h

/-- Under a full window, the running-return series has exactly 30 entries. -/
lemma window_returns_length (df : List PriceRow) (idx : ℕ) (p0 : ℚ)
    (dirn : SignalDirection) (hw : idx + 30 ≤ df.length) :
    (window_returns df idx p0 dirn).length = 30 := by
  simp only [window_returns, List.length_map, List.length_take,
    List.length_drop]
  omega

/-- The running-return series starts with the anchor day's own
direction-adjusted return, which is exactly 0. -/
lemma window_returns_head (df : List PriceRow) (idx : ℕ)
    (dirn : SignalDirection) (hlt : idx < df.length) :
    (0:ℚ) ∈ window_returns df idx ((df.get? idx).getD ⟨0, 0⟩).close dirn := by
  have hget : df.get? idx = some (df.get ⟨idx, hlt⟩) := List.get?_eq_get hlt
  have hdrop : df.drop idx = df.get ⟨idx, hlt⟩ :: df.drop (idx + 1) :=
    List.drop_eq_get_cons hlt
  unfold window_returns
  rw [hget, Option.getD_some, hdrop]
  rw [show (30:ℕ) = 29 + 1 from rfl, List.take_succ_cons, List.map_cons]
  have hzero : adjust dirn
      (((df.get ⟨idx, hlt⟩).close - (df.get ⟨idx, hlt⟩).close) /
        (df.get ⟨idx, hlt⟩).close) = 0 := by
    rw [sub_self, zero_div]
    unfold adjust
    split_ifs <;> simp
  rw [hzero]
  exact List.mem_cons_self _ _

end Backtester

open Backtester in
/-- C8: `max_gain`/`max_drawdown` are populated iff the 30-trading-day
window starting at the anchor day fully exists (`signal_idx + 30 ≤ len(df)`),
and then they are respectively the maximum and minimum of the
direction-adjusted running return series over that window. -/
theorem claim_C8 (df : List PriceRow) (t : String) (sd : ℤ)
    (dirn : SignalDirection) (conf : ℚ) (idx : ℕ) (r : BacktestResult)
    (hidx : df.findIdx? (fun row => decide (sd ≤ row.date)) = some idx)
    (hbt : backtest_signal df t sd dirn conf = some r) :
    ((r.max_gain.isSome ∧ r.max_drawdown.isSome) ↔ idx + 30 ≤ df.length) ∧
    (∀ g, r.max_gain = some g →
      g ∈ window_returns df idx r.price_at_signal dirn ∧
      ∀ x ∈ window_returns df idx r.price_at_signal dirn, x ≤ g) ∧
    (∀ d, r.max_drawdown = some d →
      d ∈ window_returns df idx r.price_at_signal dirn ∧
      ∀ x ∈ window_returns df idx r.price_at_signal dirn, d ≤ x) := by
  rw [backtest_signal_eq df t sd dirn conf idx hidx] at hbt
  obtain rfl := Option.some.inj hbt
  dsimp only
  by_cases hw : idx + 30 ≤ df.length
  · have hcond : decide (idx + 30 ≤ df.length) = true := by simpa using hw
    rw [if_pos hcond, if_pos hcond]
    have hne : window_returns df idx ((df.get? idx).getD ⟨0, 0⟩).close dirn
        ≠ [] := by
      intro hnil
      have := window_returns_length df idx ((df.get? idx).getD ⟨0, 0⟩).close
        dirn hw
      rw [hnil] at this
      exact absurd this (by norm_num)
    refine ⟨⟨fun _ => hw, fun _ => ⟨?_, ?_⟩⟩, ?_, ?_⟩
    · rw [Option.isSome_iff_ne_none]
      intro hnone
      exact hne (List.max?_eq_none_iff.mp hnone)
    · rw [Option.isSome_iff_ne_none]
      intro hnone
      exact hne (List.min?_eq_none_iff.mp hnone)
    · intro g hg
      exact max?_spec _ _ hg
    · intro d hd
      exact min?_spec _ _ hd
  · have hcond : ¬ (decide (idx + 30 ≤ df.length) = true) := by simpa using hw
    rw [if_neg hcond, if_neg hcond]
    refine ⟨by simp [hw], ?_, ?_⟩
    · intro g hg
      exact Option.noConfusion hg
    · intro d hd
      exact Option.noConfusion hd

open Backtester in
/-- C10: whenever `backtest_signal` populates `max_gain`/`max_drawdown`,
`max_gain ≥ 0` and `max_drawdown ≤ 0`: the evaluated window starts at the
anchor day itself, whose direction-adjusted return is exactly 0. -/
theorem claim_C10 (df : List PriceRow) (t : String) (sd : ℤ)
    (dirn : SignalDirection) (conf : ℚ) (r : BacktestResult) (g d : ℚ)
    (hbt : backtest_signal df t sd dirn conf = some r)
    (hg : r.max_gain = some g) (hd : r.max_drawdown = some d) :
    0 ≤ g ∧ d ≤ 0 := by
  rcases hfind : df.findIdx? (fun row => decide (sd ≤ row.date)) with - | idx
  · rcases em (df = []) with h0 | h0
    · rw [backtest_signal, if_pos h0] at hbt
      exact Option.noConfusion hbt
    · rw [backtest_signal, if_neg h0, hfind] at hbt
      exact Option.noConfusion hbt
  · rw [backtest_signal_eq df t sd dirn conf idx hfind] at hbt
    obtain rfl := Option.some.inj hbt
    dsimp only at hg hd
    by_cases hw : idx + 30 ≤ df.length
    · have hcond : decide (idx + 30 ≤ df.length) = true := by simpa using hw
      rw [if_pos hcond] at hg hd
      have hmem := window_returns_head df idx dirn (by omega)
      exact ⟨(max?_spec _ _ hg).2 0 hmem, (min?_spec _ _ hd).2 0 hmem⟩
    · have hcond : ¬ (decide (idx + 30 ≤ df.length) = true) := by simpa using hw
      rw [if_neg hcond] at hg
      exact Option.noConfusion hg

open Backtester in
/-- Witness for C8 on a one-row price series: the 30-day window does not
exist, and neither extremum is populated. -/
theorem claim_C8_witness :
    (((none : Option ℚ).isSome ∧ (none : Option ℚ).isSome) ↔
      0 + 30 ≤ ([⟨0, 100⟩] : List PriceRow).length) :=
  (claim_C8 [⟨0, 100⟩] "AAPL" 0 .buy 1 0
    ⟨"AAPL", 0, .buy, 1, 100, none, none, none, none, none, none, none,
      none, none⟩ rfl rfl).1

/-- The 30-row constant price series of the C10 witness. -/
def c10df : List Backtester.PriceRow := List.replicate 30 ⟨0, 100⟩

open Backtester in
/-- Witness for C10 on `c10df`: both extrema equal 0, satisfying
`max_gain ≥ 0` and `max_drawdown ≤ 0`. -/
theorem claim_C10_witness : (0:ℚ) ≤ 0 ∧ (0:ℚ) ≤ 0 := by
  have hfind : c10df.findIdx? (fun row => decide ((0:ℤ) ≤ row.date)) =
      some 0 := rfl
  have hbt := backtest_signal_eq c10df "AAPL" 0 .buy 1 0 hfind
  have hwin : window_returns c10df 0 100 .buy = List.replicate 30 0 := by
    unfold window_returns c10df
    rw [List.drop_zero, List.take_replicate, List.map_replicate]
    norm_num [adjust]
  apply claim_C10 c10df "AAPL" 0 .buy 1 _ 0 0 hbt
  · show (if decide (0 + 30 ≤ c10df.length) = true then
        (window_returns c10df 0 ((c10df.get? 0).getD ⟨0, 0⟩).close .buy).max?
      else none) = some 0
    rw [if_pos (show decide (0 + 30 ≤ c10df.length) = true from rfl)]
    rw [show ((c10df.get? 0).getD (⟨0, 0⟩ : Backtester.PriceRow)).close = 100
      from rfl]
    rw [hwin, List.max?_replicate_of_pos (max_self 0) (by norm_num)]
  · show (if decide (0 + 30 ≤ c10df.length) = true then
        (window_returns c10df 0 ((c10df.get? 0).getD ⟨0, 0⟩).close .buy).min?
      else none) = some 0
    rw [if_pos (show decide (0 + 30 ≤ c10df.length) = true from rfl)]
    rw [show ((c10df.get? 0).getD (⟨0, 0⟩ : Backtester.PriceRow)).close = 100
      from rfl]
    rw [hwin, List.min?_replicate_of_pos (min_self 0) (by norm_num)]

/-- A backtest result carrying only a 30-day return and its winner flag, as
in the C6 summary scenario ("is_winner set accordingly"). -/
def c6_result (q : ℚ) (w : Bool) : Backtester.BacktestResult :=
  { ticker := "AAPL", signal_date := 0, signal_direction := .buy,
    signal_confidence := 1, price_at_signal := 100,
    return_1d := none, return_7d := none, return_30d := some q,
    price_after_1d := none, price_after_7d := none, price_after_30d := none,
    is_winner := some w, max_gain := none, max_drawdown := none }

open Backtester in
/-- C6: over the three results with 30-day returns [0.10, −0.05, 0.20],
`generate_summary` reports win_rate 2/3, avg_return_30d 1/12 ≈ 0.0833, best
0.20, worst −0.05 and profit factor (0.10+0.20)/0.05 = 6; in general the
win rate equals the winner count divided by the number of results with a
non-None 30-day return. -/
theorem claim_C6 :
    ((generate_summary [c6_result (1/10) true, c6_result (-1/20) false,
        c6_result (1/5) true]).win_rate = 2/3 ∧
     (generate_summary [c6_result (1/10) true, c6_result (-1/20) false,
        c6_result (1/5) true]).winners = 2 ∧
     (generate_summary [c6_result (1/10) true, c6_result (-1/20) false,
        c6_result (1/5) true]).avg_return_30d = 1/12 ∧
     |(1/12 : ℚ) - 833/10000| < 1/10000 ∧
     (generate_summary [c6_result (1/10) true, c6_result (-1/20) false,
        c6_result (1/5) true]).best_return = 1/5 ∧
     (generate_summary [c6_result (1/10) true, c6_result (-1/20) false,
        c6_result (1/5) true]).worst_return = -1/20 ∧
     (generate_summary [c6_result (1/10) true, c6_result (-1/20) false,
        c6_result (1/5) true]).profit_factor = some 6) ∧
    (∀ results : List BacktestResult,
      results.filter (fun r => r.return_30d ≠ none) ≠ [] →
      (generate_summary results).win_rate =
        ((generate_summary results).winners : ℚ) /
          ((results.filter (fun r => r.return_30d ≠ none)).length : ℚ)) := by
  constructor
  · norm_num [generate_summary, c6_result, mean, empty_summary,
      List.filter_cons, List.filter_nil, List.filterMap_cons,
      List.filterMap_nil, List.sum_cons, List.sum_nil, List.length_cons,
      List.length_nil, List.max?_cons', List.min?_cons', List.foldl_cons,
      List.foldl_nil, max_def, min_def, abs_lt, Option.some_ne_none,
      reduceCtorEq, Option.isSome_some, ne_eq, List.cons_ne_nil]
    rw [abs_of_pos] <;> norm_num
  · intro results hval
    have hrs : results ≠ [] := by
      intro h
      rw [h] at hval
      exact hval rfl
    unfold generate_summary
    rw [if_neg hrs, if_neg hval]

open Backtester in
/-- Witness for C6's general win-rate law at the three-result scenario. -/
theorem claim_C6_witness :
    (generate_summary [c6_result (1/10) true, c6_result (-1/20) false,
        c6_result (1/5) true]).win_rate =
      ((generate_summary [c6_result (1/10) true, c6_result (-1/20) false,
          c6_result (1/5) true]).winners : ℚ) /
        (([c6_result (1/10) true, c6_result (-1/20) false,
            c6_result (1/5) true].filter
          (fun r => r.return_30d ≠ none)).length : ℚ) :=
  claim_C6.2 [c6_result (1/10) true, c6_result (-1/20) false,
      c6_result (1/5) true]
    (by norm_num [c6_result, List.filter_cons, List.filter_nil,
      Option.some_ne_none, ne_eq, List.cons_ne_nil])
